import Mathlib

/-!
Shallow embedding of `src/dynamic-autocomplete/src/app/autocomplete/autocomplete.component.ts`
(the `AutocompleteComponent` class) and proofs about it.

Modelling conventions:
* JavaScript runtime values are modelled by `JSVal`; objects are opaque
  (identified by a tag), since the component never inspects candidate
  internals except through display resolution.
* JS strict equality `===` is modelled by structural equality on `JSVal`.
* JS truthiness is `JSVal.truthy`.
* `typeof` is `typeofJS`.
* The dynamic `eval(this.displayItem)` inside `viewItem` (and the `item.name`
  fallback) cannot be embedded directly; it is abstracted as the oracle
  `Config.evalOrName : JSVal → String`, standing for
  `this.displayItem ? eval(this.displayItem) : item.name`.
* Asynchronous `service.fetch(..).then(..)` calls are split into a dispatch
  step (which records an in-flight request in `pendingFetch` /
  `pendingPrefetch`) and a completion step that may consume ANY in-flight
  request (any completion order) and carries the service's result as data.
* `requestsInQueue` is an `Int` (a JS number), so that non-negativity is a
  real statement.
* The ghost field `lastCompleted` records, for the most recently completed
  fetch / prefetch / local filter, the query it was for (`none` for
  prefetch, which sends no query) and whether the raw result was empty.
  It instruments the embedding for the `noSuggestions` invariant and does
  not influence any concrete field.
* `AbstractValueAccessor` is not under `src/`. Modelled from the spec:
  the form-binding `value` is a plain stored field (external writers set
  it, the control stores it); `formControlItem.reset()` acts only on the
  external form system and is outside the modelled state.
-/

namespace AutocompleteModel

/-- JavaScript runtime values, as far as the component observes them.
Objects are opaque and carry only an identifying tag. -/
inductive JSVal : Type where
  | null : JSVal
  | undef : JSVal
  | jbool : Bool → JSVal
  | jnum : Int → JSVal
  | jstr : String → JSVal
  | jobj : String → JSVal
deriving DecidableEq, Repr

/-- JavaScript `typeof`. -/
def typeofJS : JSVal → String
  | JSVal.null => "object"
  | JSVal.undef => "undefined"
  | JSVal.jbool _ => "boolean"
  | JSVal.jnum _ => "number"
  | JSVal.jstr _ => "string"
  | JSVal.jobj _ => "object"

/-- JavaScript truthiness. -/
def JSVal.truthy : JSVal → Bool
  | JSVal.null => false
  | JSVal.undef => false
  | JSVal.jbool b => b
  | JSVal.jnum n => decide (n ≠ 0)
  | JSVal.jstr s => decide (s ≠ "")
  | JSVal.jobj _ => true

/-- `segStarts l q`: the char list `q` is an initial segment of `l`. -/
def segStarts : List Char → List Char → Bool
  | _, [] => true
  | [], _ :: _ => false
  | a :: as, b :: bs => decide (a = b) && segStarts as bs

/-- `segContains l q`: the char list `q` occurs contiguously inside `l`
(JS `l.indexOf(q) > -1`; the empty segment always occurs). -/
def segContains : List Char → List Char → Bool
  | [], q => q.isEmpty
  | a :: as, q => segStarts (a :: as) q || segContains as q

/-- JS `s.indexOf(q) > -1` on strings. -/
def strContains (s q : String) : Bool :=
  segContains s.toList q.toList

/-- ASCII lowercasing of one character (JS `toLowerCase` restricted to the
character range the component's claims exercise). -/
def charLower (c : Char) : Char :=
  if 'A' ≤ c ∧ c ≤ 'Z' then Char.ofNat (c.toNat + 32) else c

/-- JS `s.toLowerCase()`. -/
def strLower (s : String) : String :=
  String.mk (s.toList.map charLower)

/-- Configuration inputs of the component that the claims depend on
(`@Input()` fields, fixed over a run). -/
structure Config : Type where
  minChars : Nat
  doPrefetch : Bool
  clearAfterSearch : Bool
  displayItem : Option String
  displayItemFn : Option (JSVal → String)
  /-- Oracle for `this.displayItem ? eval(this.displayItem) : item.name`. -/
  evalOrName : JSVal → String
  filterCallback : List JSVal → List JSVal

/-- Ghost record of the most recently completed fetch / prefetch / filter:
the query it was for (`none` for prefetch) and whether its raw result was
empty. -/
structure CompInfo : Type where
  forQuery : Option String
  resultEmpty : Bool
deriving DecidableEq, Repr

/-- The mutable fields of `AutocompleteComponent` observed by the claims,
plus the in-flight request books (`pendingFetch`, `pendingPrefetch`) and
the ghost `lastCompleted`. -/
structure State : Type where
  currentModel : JSVal
  value : JSVal
  query : String
  autocompleteList : Option (List JSVal)
  noSuggestions : Bool
  requestsInQueue : Int
  storedItems : Option (List JSVal)
  hasService : Bool
  returnType : Option String
  pendingFetch : List String
  pendingPrefetch : Nat
  lastCompleted : Option CompInfo
deriving DecidableEq, Repr

/-- The synchronously thrown configuration errors of the component. -/
inductive Err : Type where
  | noService : Err
  | noDisplay : Err
  | badDisplay : Err
deriving DecidableEq, Repr

/-- What one operation reports outward: a thrown error, the values emitted
on `modelChange`, and the values emitted on `optionSelected`. -/
structure Output : Type where
  err : Option Err
  modelChange : List JSVal
  optionSelected : List JSVal
deriving DecidableEq, Repr

/-- The silent output. -/
def Output.quiet : Output := ⟨Option.none, [], []⟩

/-- `!this.displayItem && !this.displayItemFn` negated: some display
strategy is configured (a set but empty `displayItem` string is falsy). -/
def displayConfigured (cfg : Config) : Bool :=
  (match cfg.displayItem with
   | some s => decide (s ≠ "")
   | none => false) || cfg.displayItemFn.isSome

/-- `viewItem` (lines 275-281): the display function if set, otherwise the
`eval` / `.name` fallback oracle. -/
def viewItem (cfg : Config) (item : JSVal) : String :=
  match cfg.displayItemFn with
  | some f => f item
  | none => cfg.evalOrName item

/-- `saveReturnType` (lines 314-318): remember `typeof items[0]` whenever
the list is non-empty; an empty list leaves the cache unchanged. -/
def saveReturnType (rt : Option String) (items : List JSVal) : Option String :=
  match items with
  | [] => rt
  | x :: _ => some (typeofJS x)

/-- The `model` setter (lines 101-108). Returns the new state and the list
of values emitted on `modelChange`. -/
def setModelFn (v : JSVal) (s : State) : State × List JSVal :=
  if v = s.currentModel then (s, [])
  else
    let s2 := { s with currentModel := v }
    if v = JSVal.null ∨ s.returnType = some (typeofJS v) then (s2, [v])
    else (s2, [])

/-- `clearValue` (lines 283-289): reset the form control (external), set
`model` to `null` through the setter, set `value` to `""`. -/
def clearValue (s : State) : State × List JSVal :=
  let p := setModelFn JSVal.null s
  ({ p.1 with value := JSVal.jstr "" }, p.2)

/-- `doSearchViaService` (lines 291-295). -/
def doSearchViaService (cfg : Config) (s : State) : Bool :=
  s.hasService && !cfg.doPrefetch

/-- `fetch(force?)` dispatch (lines 152-183). `inp` is the raw DOM input
text read into `this.query`. A passed gate pushes the query onto
`pendingFetch`; the completion is a separate step. -/
def fetchOp (cfg : Config) (inp : String) (force : Bool) (s : State) :
    State × Output :=
  if s.hasService = false then (s, ⟨some Err.noService, [], []⟩)
  else
    let s1 := { s with query := inp }
    if inp.length ≤ 0 then
      ({ s1 with autocompleteList := some [] }, Output.quiet)
    else if force || decide (cfg.minChars ≤ inp.length) then
      ({ s1 with
          noSuggestions := false,
          requestsInQueue := s1.requestsInQueue + 1,
          pendingFetch := s1.pendingFetch ++ [inp] }, Output.quiet)
    else (s1, Output.quiet)

/-- Completion of the `k`-th in-flight `fetch` request (the `.then` body,
lines 176-181), with `result` the raw service result. Completions may
arrive in any order, so `k` is arbitrary; an index with no in-flight
request completes nothing. -/
def fetchComplete (cfg : Config) (k : Nat) (result : List JSVal) (s : State) :
    State :=
  if h : k < s.pendingFetch.length then
    let q := s.pendingFetch.get ⟨k, h⟩
    let transformed := cfg.filterCallback result
    { s with
        requestsInQueue := s.requestsInQueue - 1,
        autocompleteList := some transformed,
        noSuggestions := result.isEmpty,
        returnType := saveReturnType s.returnType transformed,
        pendingFetch := s.pendingFetch.eraseIdx k,
        lastCompleted := some ⟨some q, result.isEmpty⟩ }
  else s

/-- `prefetch` dispatch (lines 132-150). -/
def prefetchOp (s : State) : State × Output :=
  if s.hasService = false then (s, ⟨some Err.noService, [], []⟩)
  else
    ({ s with
        storedItems := some [],
        noSuggestions := false,
        pendingPrefetch := s.pendingPrefetch + 1 }, Output.quiet)

/-- Completion of a prefetch (the `.then` body, lines 145-149). -/
def prefetchComplete (cfg : Config) (result : List JSVal) (s : State) :
    State :=
  if s.pendingPrefetch = 0 then s
  else
    let transformed := cfg.filterCallback result
    { s with
        storedItems := some transformed,
        noSuggestions := result.isEmpty,
        returnType := saveReturnType s.returnType transformed,
        pendingPrefetch := s.pendingPrefetch - 1,
        lastCompleted := some ⟨Option.none, result.isEmpty⟩ }

/-- The `Array.filter` callback loop inside `filterStoredItems`
(lines 197-207): left to right, throw at the first candidate whose
resolved display string is falsy, otherwise keep the candidate when its
lowercased display string contains the lowercased query. -/
def filterItems (cfg : Config) (q : String) : List JSVal → Except Err (List JSVal)
  | [] => Except.ok []
  | x :: xs =>
    if viewItem cfg x = "" then Except.error Err.badDisplay
    else
      match filterItems cfg q xs with
      | Except.error e => Except.error e
      | Except.ok r =>
        Except.ok
          (if strContains (strLower (viewItem cfg x)) (strLower q) then x :: r
           else r)

/-- `filterStoredItems` (lines 185-214). `inp` is the raw DOM input text. -/
def filterStoredItems (cfg : Config) (inp : String) (s : State) :
    State × Output :=
  if displayConfigured cfg = false then (s, ⟨some Err.noDisplay, [], []⟩)
  else
    let s1 := { s with query := inp }
    if inp.length < cfg.minChars then (s1, Output.quiet)
    else
      match s1.storedItems with
      | some items =>
        match filterItems cfg inp items with
        | Except.error e => (s1, ⟨some e, [], []⟩)
        | Except.ok l =>
          ({ s1 with
              autocompleteList := some l,
              noSuggestions := decide (0 < inp.length) && l.isEmpty,
              lastCompleted := some ⟨some inp, l.isEmpty⟩ }, Output.quiet)
      | none =>
        ({ s1 with
            autocompleteList := some [],
            noSuggestions := false,
            lastCompleted := some ⟨some inp, true⟩ }, Output.quiet)

/-- `autocompleteSelected($event)` (lines 216-230), with `inp` the raw DOM
input text and `sel` the event's `option.value`. -/
def autocompleteSelected (cfg : Config) (inp : String) (sel : JSVal)
    (s : State) : State × Output :=
  let s1 := { s with query := inp, value := sel }
  let p := setModelFn sel s1
  let opt := if sel.truthy then [sel] else []
  if cfg.clearAfterSearch then
    let c := clearValue p.1
    (c.1, ⟨Option.none, p.2 ++ c.2, opt⟩)
  else
    (p.1, ⟨Option.none, p.2, opt⟩)

/-- `onKeyCallback` (lines 252-258): `fetch()` (so `force` is `undefined`,
i.e. falsy) on the remote path, `filterStoredItems()` otherwise. -/
def onKeyCallback (cfg : Config) (inp : String) (s : State) : State × Output :=
  if doSearchViaService cfg s then fetchOp cfg inp false s
  else filterStoredItems cfg inp s

/-- `onFocus` (lines 267-273): identical dispatch rule. -/
def onFocus (cfg : Config) (inp : String) (s : State) : State × Output :=
  if doSearchViaService cfg s then fetchOp cfg inp false s
  else filterStoredItems cfg inp s

/-- The `source` setter (lines 54-62) receiving an array: copy it into
`storedItems` and record the return type. -/
def setSourceArr (items : List JSVal) (s : State) : State :=
  { s with
      storedItems := some items,
      returnType := saveReturnType s.returnType items }

/-- The `source` setter receiving a fetch-capable service. -/
def setSourceService (s : State) : State :=
  { s with hasService := true }

/-- Events driving the component: configuration writes, dispatches,
asynchronous completions (carrying the service's data), and user actions. -/
inductive Event : Type where
  | srcService : Event
  | srcArray : List JSVal → Event
  | prefetchStart : Event
  | prefetchDone : List JSVal → Event
  | fetchStart : String → Bool → Event
  | fetchDone : Nat → List JSVal → Event
  | filterEv : String → Event
  | keyCb : String → Event
  | focusEv : String → Event
  | selectEv : String → JSVal → Event
  | clearEv : Event
  | modelWrite : JSVal → Event

/-- One transition of the component (outputs discarded). -/
def step (cfg : Config) (s : State) : Event → State
  | Event.srcService => setSourceService s
  | Event.srcArray items => setSourceArr items s
  | Event.prefetchStart => (prefetchOp s).1
  | Event.prefetchDone r => prefetchComplete cfg r s
  | Event.fetchStart inp f => (fetchOp cfg inp f s).1
  | Event.fetchDone k r => fetchComplete cfg k r s
  | Event.filterEv inp => (filterStoredItems cfg inp s).1
  | Event.keyCb inp => (onKeyCallback cfg inp s).1
  | Event.focusEv inp => (onFocus cfg inp s).1
  | Event.selectEv inp sel => (autocompleteSelected cfg inp sel s).1
  | Event.clearEv => (clearValue s).1
  | Event.modelWrite v => (setModelFn v s).1

/-- The freshly constructed component: uninitialized TS fields are
`undefined` / falsy, `requestsInQueue = 0`, no service, nothing pending. -/
def initState : State :=
  { currentModel := JSVal.undef
    value := JSVal.undef
    query := ""
    autocompleteList := Option.none
    noSuggestions := false
    requestsInQueue := 0
    storedItems := Option.none
    hasService := false
    returnType := Option.none
    pendingFetch := []
    pendingPrefetch := 0
    lastCompleted := Option.none }

/-- Run a trace of events from the initial state. -/
def runTrace (cfg : Config) (tr : List Event) : State :=
  tr.foldl (step cfg) initState

end AutocompleteModel

namespace AutocompleteModel

/-! ### Helper lemmas -/

theorem strLength_eq_zero_iff (s : String) : s.length = 0 ↔ s = "" := by
  cases s with
  | mk data => simp [String.length, String.ext_iff]

theorem setModelFn_currentModel (v : JSVal) (s : State) :
    (setModelFn v s).1.currentModel = v := by
  unfold setModelFn
  split
  · next h => exact h.symm
  · split <;> rfl

theorem setModelFn_value (v : JSVal) (s : State) :
    (setModelFn v s).1.value = s.value := by
  unfold setModelFn
  split
  · rfl
  · split <;> rfl

/-! ### Concrete instances used by witnesses -/

/-- A bare configuration: default `minChars = 2`, no prefetch, no clearing,
no display strategy, identity result transform. -/
def cfg0 : Config :=
  ⟨2, false, false, Option.none, Option.none, fun _ => "", fun l => l⟩

/-- The initial state after the `source` input received a service. -/
def svcState : State := setSourceService initState

/-! ### C9 -/

/-- C9: a `prefetch` dispatch and a prefetch completion both leave
`requestsInQueue` unchanged at its prior value — unlike `fetch`, `prefetch`
never touches the outstanding-request counter. -/
theorem prefetch_requests_frame (cfg : Config) (s : State)
    (result : List JSVal) :
    (prefetchOp s).1.requestsInQueue = s.requestsInQueue ∧
    (prefetchComplete cfg result s).requestsInQueue = s.requestsInQueue := by
  constructor
  · by_cases h : s.hasService = false <;> simp [prefetchOp, h]
  · by_cases h : s.pendingPrefetch = 0 <;> simp [prefetchComplete, h]

/-! ### C6 -/

/-- C6: keystroke handling (`onKeyCallback`) and focus handling (`onFocus`)
dispatch identically; they use the remote path (`fetch`, with falsy
`force`) if and only if a service is configured and `doPrefetch` is false,
and the local path (`filterStoredItems`) in every other configuration. -/
theorem dispatch_path_rule (cfg : Config) (inp : String) (s : State) :
    onKeyCallback cfg inp s = onFocus cfg inp s ∧
    (s.hasService = true ∧ cfg.doPrefetch = false →
      onKeyCallback cfg inp s = fetchOp cfg inp false s ∧
      onFocus cfg inp s = fetchOp cfg inp false s) ∧
    (s.hasService = false ∨ cfg.doPrefetch = true →
      onKeyCallback cfg inp s = filterStoredItems cfg inp s ∧
      onFocus cfg inp s = filterStoredItems cfg inp s) := by
  refine ⟨rfl, ?_, ?_⟩
  · rintro ⟨h1, h2⟩
    constructor <;> simp [onKeyCallback, onFocus, doSearchViaService, h1, h2]
  · rintro (h | h) <;>
      constructor <;> simp [onKeyCallback, onFocus, doSearchViaService, h]

/-- Witness for C6 at a concrete configured state. -/
theorem dispatch_path_rule_witness :
    (svcState.hasService = true ∧ cfg0.doPrefetch = false) ∧
    onKeyCallback cfg0 "ab" svcState = fetchOp cfg0 "ab" false svcState :=
  ⟨⟨rfl, rfl⟩, ((dispatch_path_rule cfg0 "ab" svcState).2.1 ⟨rfl, rfl⟩).1⟩

/-! ### C3 -/

/-- C3: assigning a `model` value that differs from the current model
always stores the new value internally, and `modelChange` is emitted if
and only if the new value is `null` or its `typeof` equals the cached
observed value kind. -/
theorem model_setter_correct (s : State) (v : JSVal)
    (h : v ≠ s.currentModel) :
    (setModelFn v s).1.currentModel = v ∧
    (setModelFn v s).2 =
      (if v = JSVal.null ∨ s.returnType = some (typeofJS v) then [v]
       else []) := by
  refine ⟨setModelFn_currentModel v s, ?_⟩
  unfold setModelFn
  rw [if_neg h]
  split <;> rfl

/-- Witness for C3: writing `null` over the initial (`undefined`) model
stores it and emits. -/
theorem model_setter_correct_witness :
    JSVal.null ≠ initState.currentModel ∧
    (setModelFn JSVal.null initState).1.currentModel = JSVal.null ∧
    (setModelFn JSVal.null initState).2 = [JSVal.null] := by
  have h := model_setter_correct initState JSVal.null (by decide)
  refine ⟨by decide, h.1, ?_⟩
  rw [h.2]
  decide

/-! ### C4 -/

/-- C4 counterexample: selecting the empty string — a non-null candidate —
does NOT emit `optionSelected`, because the code guards the emission with
JS truthiness (`if (selected)`), not with a null check. -/
theorem autocompleteSelected_cex :
    JSVal.jstr "" ≠ JSVal.null ∧
    (autocompleteSelected cfg0 "x" (JSVal.jstr "") initState).2.optionSelected
      = [] := by
  exact ⟨by decide, by decide⟩

/-- C4 (amended): `autocompleteSelected` sets both the bound value and the
model to the selected candidate, emits `optionSelected` if and only if the
candidate is truthy (not merely non-null), and when `clearAfterSearch` is
configured leaves the model `null` and the value `""` immediately
afterward. -/
theorem autocompleteSelected_amended (cfg : Config) (inp : String)
    (sel : JSVal) (s : State) :
    (autocompleteSelected cfg inp sel s).1.value =
      (if cfg.clearAfterSearch then JSVal.jstr "" else sel) ∧
    (autocompleteSelected cfg inp sel s).1.currentModel =
      (if cfg.clearAfterSearch then JSVal.null else sel) ∧
    (autocompleteSelected cfg inp sel s).2.optionSelected =
      (if sel.truthy then [sel] else []) := by
  by_cases hc : cfg.clearAfterSearch <;>
    simp [autocompleteSelected, clearValue, hc, setModelFn_currentModel,
      setModelFn_value]

/-! ### C5 -/

/-- C5: for a query shorter than `minChars` under a non-forced dispatch,
no remote fetch is invoked and `requestsInQueue` is unchanged; the local
path leaves the candidate list (and `noSuggestions`) untouched, while the
remote path sets the candidate list to `[]` exactly when the query is
empty and leaves it unchanged when it is non-empty but too short. -/
theorem short_query_frame (cfg : Config) (s : State) (inp : String)
    (hlen : inp.length < cfg.minChars) :
    ((filterStoredItems cfg inp s).1.autocompleteList = s.autocompleteList ∧
     (filterStoredItems cfg inp s).1.requestsInQueue = s.requestsInQueue ∧
     (filterStoredItems cfg inp s).1.pendingFetch = s.pendingFetch ∧
     (filterStoredItems cfg inp s).1.noSuggestions = s.noSuggestions) ∧
    (s.hasService = true →
      (fetchOp cfg inp false s).1.requestsInQueue = s.requestsInQueue ∧
      (fetchOp cfg inp false s).1.pendingFetch = s.pendingFetch ∧
      (fetchOp cfg inp false s).1.autocompleteList =
        (if inp = "" then some [] else s.autocompleteList)) := by
  constructor
  · by_cases hd : displayConfigured cfg = false
    · simp [filterStoredItems, hd]
    · simp [filterStoredItems, hd, hlen]
  · intro hs
    have hs' : ¬ s.hasService = false := by simp [hs]
    by_cases he : inp.length ≤ 0
    · have he' : inp = "" := (strLength_eq_zero_iff inp).mp (by omega)
      simp [fetchOp, hs', he, he']
    · have hgate : ¬ (false || decide (cfg.minChars ≤ inp.length)) = true := by
        simp
        omega
      have he'' : inp ≠ "" := by
        intro hcon
        rw [hcon] at he
        simp at he
      simp [fetchOp, hs', he, hgate, he'']

/-- Witness for C5: a one-character query against `minChars = 2` on a
service-configured state. -/
theorem short_query_frame_witness :
    "a".length < cfg0.minChars ∧ svcState.hasService = true ∧
    (fetchOp cfg0 "a" false svcState).1.requestsInQueue
      = svcState.requestsInQueue ∧
    (fetchOp cfg0 "a" false svcState).1.pendingFetch
      = svcState.pendingFetch := by
  have h := (short_query_frame cfg0 svcState "a" (by decide)).2 rfl
  exact ⟨by decide, rfl, h.1, h.2.1⟩

end AutocompleteModel

namespace AutocompleteModel

/-! ### Lemmas about the filter loop -/

theorem strLength_pos_iff (s : String) : 0 < s.length ↔ s ≠ "" := by
  rw [Nat.pos_iff_ne_zero]
  exact not_congr (strLength_eq_zero_iff s)

theorem filterItems_ok (cfg : Config) (q : String) (items : List JSVal)
    (hview : ∀ i ∈ items, viewItem cfg i ≠ "") :
    filterItems cfg q items =
      Except.ok (items.filter
        (fun i => strContains (strLower (viewItem cfg i)) (strLower q))) := by
  induction items with
  | nil => simp [filterItems]
  | cons x xs ih =>
    have hx : viewItem cfg x ≠ "" := hview x (List.mem_cons_self x xs)
    have hxs : ∀ i ∈ xs, viewItem cfg i ≠ "" :=
      fun i hi => hview i (List.mem_cons_of_mem x hi)
    simp [filterItems, hx, ih hxs, List.filter_cons]

theorem filterItems_error (cfg : Config) (q : String) (items : List JSVal)
    (i : JSVal) (hmem : i ∈ items) (hfalsy : viewItem cfg i = "") :
    filterItems cfg q items = Except.error Err.badDisplay := by
  induction items with
  | nil => cases hmem
  | cons x xs ih =>
    rcases List.mem_cons.mp hmem with h | h
    · subst h
      simp [filterItems, hfalsy]
    · by_cases hx : viewItem cfg x = ""
      · simp [filterItems, hx]
      · simp [filterItems, hx, ih h]

/-! ### C2 -/

/-- C2: on a stored local collection whose display strings all resolve
truthily, `filterStoredItems` with a query of qualifying length sets the
candidate list to exactly the subsequence of stored items whose display
string contains the query case-insensitively, sets `noSuggestions` exactly
when the query is non-empty and that subsequence is empty, leaves the
stored collection itself untouched, and is idempotent for an unchanged
query. -/
theorem filterStoredItems_correct (cfg : Config) (s : State) (inp : String)
    (items : List JSVal)
    (hst : s.storedItems = some items) (hne : items ≠ [])
    (hdisp : displayConfigured cfg = true)
    (hlen : cfg.minChars ≤ inp.length)
    (hview : ∀ i ∈ items, viewItem cfg i ≠ "") :
    (filterStoredItems cfg inp s).2.err = Option.none ∧
    (filterStoredItems cfg inp s).1.autocompleteList =
      some (items.filter
        (fun i => strContains (strLower (viewItem cfg i)) (strLower inp))) ∧
    ((filterStoredItems cfg inp s).1.noSuggestions = true ↔
      (inp ≠ "" ∧ items.filter
        (fun i => strContains (strLower (viewItem cfg i)) (strLower inp))
          = [])) ∧
    (filterStoredItems cfg inp s).1.storedItems = s.storedItems ∧
    (filterStoredItems cfg inp
        (filterStoredItems cfg inp s).1).1.autocompleteList =
      (filterStoredItems cfg inp s).1.autocompleteList := by
  have hd' : ¬ displayConfigured cfg = false := by simp [hdisp]
  have hlt : ¬ inp.length < cfg.minChars := by omega
  have hok := filterItems_ok cfg inp items hview
  unfold filterStoredItems
  simp [hd', hlt, hst, hok, List.isEmpty_iff, strLength_pos_iff, Output.quiet]

/-- Witness configuration for the spec scenario: `displayItem = "item.name"`
with the `eval` oracle reading the object's tag (its `name`). -/
def cfgApple : Config :=
  ⟨2, false, false, some "item.name", Option.none,
   fun v => match v with | JSVal.jobj t => t | _ => "",
   fun l => l⟩

/-- The spec scenario's local source. -/
def appleItems : List JSVal :=
  [JSVal.jobj "Apple", JSVal.jobj "Apricot", JSVal.jobj "Banana"]

/-- State after assigning the spec scenario's local source. -/
def appleState : State := setSourceArr appleItems initState

/-- Witness for C2: the spec scenario, query "Ap". -/
theorem filterStoredItems_correct_witness :
    (appleState.storedItems = some appleItems ∧ appleItems ≠ [] ∧
     displayConfigured cfgApple = true ∧ cfgApple.minChars ≤ "Ap".length ∧
     ∀ i ∈ appleItems, viewItem cfgApple i ≠ "") ∧
    (filterStoredItems cfgApple "Ap" appleState).1.autocompleteList =
      some [JSVal.jobj "Apple", JSVal.jobj "Apricot"] ∧
    (filterStoredItems cfgApple "Ap" appleState).1.noSuggestions = false := by
  have h := filterStoredItems_correct cfgApple appleState "Ap" appleItems
    rfl (by decide) (by decide) (by decide) (by decide)
  refine ⟨⟨rfl, by decide, by decide, by decide, by decide⟩, ?_, by decide⟩
  rw [h.2.1]
  decide

/-! ### C10 -/

/-- C10: when some stored candidate's resolved display string is falsy
(the empty string), `filterStoredItems` with a qualifying query throws the
`displayItem`-misconfiguration error instead of filtering that candidate
out or keeping it: the candidate list (and `noSuggestions`) is left
untouched. -/
theorem falsy_display_error (cfg : Config) (s : State) (inp : String)
    (items : List JSVal) (i : JSVal)
    (hst : s.storedItems = some items) (hmem : i ∈ items)
    (hfalsy : viewItem cfg i = "")
    (hdisp : displayConfigured cfg = true)
    (hlen : cfg.minChars ≤ inp.length) :
    (filterStoredItems cfg inp s).2.err = some Err.badDisplay ∧
    (filterStoredItems cfg inp s).1.autocompleteList = s.autocompleteList ∧
    (filterStoredItems cfg inp s).1.noSuggestions = s.noSuggestions := by
  have hd' : ¬ displayConfigured cfg = false := by simp [hdisp]
  have hlt : ¬ inp.length < cfg.minChars := by omega
  have herr := filterItems_error cfg inp items i hmem hfalsy
  unfold filterStoredItems
  simp [hd', hlt, hst, herr]

/-- A display function that is configured but resolves every candidate to
the empty (falsy) string. -/
def cfgBad : Config :=
  ⟨2, false, false, Option.none, some (fun _ => ""), fun _ => "", fun l => l⟩

/-- A one-candidate local source for the C10 witness. -/
def badItems : List JSVal := [JSVal.jobj "a"]

/-- State after assigning that source. -/
def badState : State := setSourceArr badItems initState

/-- Witness for C10 at a concrete falsy-display candidate. -/
theorem falsy_display_error_witness :
    (badState.storedItems = some badItems ∧ JSVal.jobj "a" ∈ badItems ∧
     viewItem cfgBad (JSVal.jobj "a") = "" ∧
     displayConfigured cfgBad = true ∧ cfgBad.minChars ≤ "ab".length) ∧
    (filterStoredItems cfgBad "ab" badState).2.err = some Err.badDisplay := by
  have h := falsy_display_error cfgBad badState "ab" badItems (JSVal.jobj "a")
    rfl (by decide) rfl (by decide) (by decide)
  exact ⟨⟨rfl, by decide, rfl, by decide, by decide⟩, h.1⟩

end AutocompleteModel

namespace AutocompleteModel

/-! ### Structural frame lemmas -/

theorem setModelFn_fst (v : JSVal) (s : State) :
    (setModelFn v s).1 = { s with currentModel := v } := by
  unfold setModelFn
  split
  · next h => rw [h]
  · split <;> rfl

theorem clearValue_fst (s : State) :
    (clearValue s).1 =
      { s with currentModel := JSVal.null, value := JSVal.jstr "" } := by
  simp only [clearValue]
  rw [setModelFn_fst]

theorem autocompleteSelected_fst (cfg : Config) (inp : String) (sel : JSVal)
    (s : State) :
    (autocompleteSelected cfg inp sel s).1 =
      (if cfg.clearAfterSearch then
        { s with query := inp, value := JSVal.jstr "",
                 currentModel := JSVal.null }
       else { s with query := inp, value := sel, currentModel := sel }) := by
  by_cases hc : cfg.clearAfterSearch <;>
    simp [autocompleteSelected, hc, setModelFn_fst, clearValue_fst]

theorem filterStoredItems_queue_frame (cfg : Config) (inp : String)
    (s : State) :
    (filterStoredItems cfg inp s).1.requestsInQueue = s.requestsInQueue ∧
    (filterStoredItems cfg inp s).1.pendingFetch = s.pendingFetch ∧
    (filterStoredItems cfg inp s).1.pendingPrefetch = s.pendingPrefetch ∧
    (filterStoredItems cfg inp s).1.returnType = s.returnType := by
  unfold filterStoredItems
  dsimp only
  split
  · exact ⟨rfl, rfl, rfl, rfl⟩
  · split
    · exact ⟨rfl, rfl, rfl, rfl⟩
    · split
      · split
        · exact ⟨rfl, rfl, rfl, rfl⟩
        · exact ⟨rfl, rfl, rfl, rfl⟩
      · exact ⟨rfl, rfl, rfl, rfl⟩

/-- Fold a preserved predicate over a whole trace. -/
theorem runTrace_preserve (cfg : Config) (P : State → Prop)
    (h0 : P initState) (hstep : ∀ s e, P s → P (step cfg s e))
    (tr : List Event) : P (runTrace cfg tr) := by
  have key : ∀ (l : List Event) (s : State), P s → P (l.foldl (step cfg) s) := by
    intro l
    induction l with
    | nil => exact fun s hs => hs
    | cons e es ih => exact fun s hs => ih (step cfg s e) (hstep s e hs)
  exact key tr initState h0

/-! ### C1 -/

/-- The outstanding-request counter always equals the number of in-flight
fetch requests. -/
def queueInv (s : State) : Prop :=
  s.requestsInQueue = (s.pendingFetch.length : Int)

theorem queueInv_fetchOp (cfg : Config) (inp : String) (force : Bool)
    (s : State) (h : queueInv s) : queueInv (fetchOp cfg inp force s).1 := by
  unfold queueInv at h ⊢
  unfold fetchOp
  split
  · exact h
  · split
    · exact h
    · split
      · simp only [List.length_append, List.length_cons, List.length_nil]
        push_cast
        omega
      · exact h

theorem queueInv_filter (cfg : Config) (inp : String) (s : State)
    (h : queueInv s) : queueInv (filterStoredItems cfg inp s).1 := by
  unfold queueInv at h ⊢
  rw [(filterStoredItems_queue_frame cfg inp s).1,
    (filterStoredItems_queue_frame cfg inp s).2.1]
  exact h

theorem queueInv_step (cfg : Config) (s : State) (e : Event)
    (h : queueInv s) : queueInv (step cfg s e) := by
  cases e with
  | srcService => exact h
  | srcArray items => exact h
  | prefetchStart =>
    show queueInv (prefetchOp s).1
    unfold queueInv at h ⊢
    unfold prefetchOp
    split
    · exact h
    · exact h
  | prefetchDone r =>
    show queueInv (prefetchComplete cfg r s)
    unfold queueInv at h ⊢
    unfold prefetchComplete
    split
    · exact h
    · exact h
  | fetchStart inp f => exact queueInv_fetchOp cfg inp f s h
  | fetchDone k r =>
    show queueInv (fetchComplete cfg k r s)
    unfold queueInv at h ⊢
    unfold fetchComplete
    split
    · next hk =>
      have hlen := List.length_eraseIdx_add_one hk
      simp only []
      omega
    · exact h
  | filterEv inp => exact queueInv_filter cfg inp s h
  | keyCb inp =>
    show queueInv (onKeyCallback cfg inp s).1
    unfold onKeyCallback
    split
    · exact queueInv_fetchOp cfg inp false s h
    · exact queueInv_filter cfg inp s h
  | focusEv inp =>
    show queueInv (onFocus cfg inp s).1
    unfold onFocus
    split
    · exact queueInv_fetchOp cfg inp false s h
    · exact queueInv_filter cfg inp s h
  | selectEv inp sel =>
    show queueInv (autocompleteSelected cfg inp sel s).1
    unfold queueInv at h ⊢
    rw [autocompleteSelected_fst]
    split
    · exact h
    · exact h
  | clearEv =>
    show queueInv (clearValue s).1
    unfold queueInv at h ⊢
    rw [clearValue_fst]
    exact h
  | modelWrite v =>
    show queueInv (setModelFn v s).1
    unfold queueInv at h ⊢
    rw [setModelFn_fst]
    exact h

/-- C1: in every reachable state, `requestsInQueue` equals the number of
in-flight fetch requests — so it is incremented exactly once per gated
dispatch, decremented exactly once per completion (in any completion
order), never goes negative, and is back to 0 exactly when every
dispatched fetch has resolved. -/
theorem requests_queue_balanced (cfg : Config) (tr : List Event) :
    (runTrace cfg tr).requestsInQueue =
      ((runTrace cfg tr).pendingFetch.length : Int) ∧
    0 ≤ (runTrace cfg tr).requestsInQueue ∧
    ((runTrace cfg tr).pendingFetch = [] →
      (runTrace cfg tr).requestsInQueue = 0) ∧
    (∀ s : State, ∀ inp : String, ∀ force : Bool,
      s.hasService = true → ¬ inp.length ≤ 0 →
      (force || decide (cfg.minChars ≤ inp.length)) = true →
      (fetchOp cfg inp force s).1.requestsInQueue = s.requestsInQueue + 1 ∧
      (fetchOp cfg inp force s).1.pendingFetch.length
        = s.pendingFetch.length + 1) ∧
    (∀ s : State, ∀ k : Nat, ∀ result : List JSVal,
      k < s.pendingFetch.length →
      (fetchComplete cfg k result s).requestsInQueue
        = s.requestsInQueue - 1 ∧
      (fetchComplete cfg k result s).pendingFetch.length
        = s.pendingFetch.length - 1) := by
  have hinv : queueInv (runTrace cfg tr) :=
    runTrace_preserve cfg queueInv rfl (queueInv_step cfg) tr
  unfold queueInv at hinv
  refine ⟨hinv, ?_, ?_, ?_, ?_⟩
  · rw [hinv]
    positivity
  · intro hnil
    rw [hinv, hnil]
    rfl
  · intro s inp force hs he hg
    have hs' : ¬ s.hasService = false := by simp [hs]
    constructor <;>
      simp [fetchOp, hs', he, hg]
  · intro s k result hk
    have hlen := List.length_eraseIdx_add_one hk
    unfold fetchComplete
    rw [dif_pos hk]
    dsimp only
    exact ⟨rfl, by omega⟩

/-- A demonstration trace: two gated dispatches whose completions arrive
in reversed order. -/
def demoTr : List Event :=
  [Event.srcService, Event.fetchStart "ab" false, Event.fetchStart "abc" false,
   Event.fetchDone 1 [], Event.fetchDone 0 [JSVal.jobj "r"]]

/-- Witness for C1: after the reversed-order completions the counter is
back to 0. -/
theorem requests_queue_balanced_witness :
    (runTrace cfg0 demoTr).pendingFetch = [] ∧
    (runTrace cfg0 demoTr).requestsInQueue = 0 :=
  ⟨by decide, (requests_queue_balanced cfg0 demoTr).2.2.1 (by decide)⟩

end AutocompleteModel

namespace AutocompleteModel

/-! ### C7 -/

/-- Every in-flight fetch was dispatched for a non-empty query, and
whenever `noSuggestions` is set, the most recently completed operation
returned an empty raw result and, if it carried a query at all, that
query was non-empty. -/
def noSuggInv (s : State) : Prop :=
  (∀ q ∈ s.pendingFetch, q ≠ "") ∧
  (s.noSuggestions = true →
    ∃ info, s.lastCompleted = some info ∧ info.resultEmpty = true ∧
      ∀ q, info.forQuery = some q → q ≠ "")

theorem noSuggInv_fetchOp (cfg : Config) (inp : String) (force : Bool)
    (s : State) (h : noSuggInv s) : noSuggInv (fetchOp cfg inp force s).1 := by
  unfold fetchOp
  split
  · exact h
  · split
    · exact h
    · next he =>
      split
      · refine ⟨?_, ?_⟩
        · intro q hq
          rcases List.mem_append.mp hq with hq | hq
          · exact h.1 q hq
          · have hq' : q = inp := by simpa using hq
            subst hq'
            intro hcon
            apply he
            rw [hcon]
            simp
        · intro hns
          exact absurd hns (by simp)
      · exact h

theorem noSuggInv_fetchComplete (cfg : Config) (k : Nat)
    (result : List JSVal) (s : State) (h : noSuggInv s) :
    noSuggInv (fetchComplete cfg k result s) := by
  unfold fetchComplete
  split
  · next hk =>
    dsimp only
    refine ⟨?_, ?_⟩
    · intro q hq
      exact h.1 q (List.mem_of_mem_eraseIdx hq)
    · intro hns
      refine ⟨⟨some (s.pendingFetch.get ⟨k, hk⟩), result.isEmpty⟩, rfl, hns, ?_⟩
      intro q hq
      have : q = s.pendingFetch.get ⟨k, hk⟩ := by
        simpa using hq.symm
      subst this
      exact h.1 _ (List.get_mem s.pendingFetch k hk)
  · exact h

theorem noSuggInv_filter (cfg : Config) (inp : String) (s : State)
    (h : noSuggInv s) : noSuggInv (filterStoredItems cfg inp s).1 := by
  unfold filterStoredItems
  dsimp only
  split
  · exact h
  · split
    · exact h
    · split
      · split
        · exact h
        · dsimp only
          refine ⟨h.1, ?_⟩
          intro hns
          rw [Bool.and_eq_true, decide_eq_true_iff] at hns
          refine ⟨⟨some inp, _⟩, rfl, hns.2, ?_⟩
          intro q hq
          have : q = inp := by simpa using hq.symm
          subst this
          exact (strLength_pos_iff q).mp hns.1
      · dsimp only
        refine ⟨h.1, ?_⟩
        intro hns
        exact absurd hns (by simp)

theorem noSuggInv_prefetchOp (s : State) (h : noSuggInv s) :
    noSuggInv (prefetchOp s).1 := by
  unfold prefetchOp
  split
  · exact h
  · refine ⟨h.1, ?_⟩
    intro hns
    exact absurd hns (by simp)

theorem noSuggInv_prefetchComplete (cfg : Config) (result : List JSVal)
    (s : State) (h : noSuggInv s) :
    noSuggInv (prefetchComplete cfg result s) := by
  unfold prefetchComplete
  split
  · exact h
  · dsimp only
    refine ⟨h.1, ?_⟩
    intro hns
    refine ⟨⟨Option.none, result.isEmpty⟩, rfl, hns, ?_⟩
    intro q hq
    exact absurd hq (by simp)

theorem noSuggInv_step (cfg : Config) (s : State) (e : Event)
    (h : noSuggInv s) : noSuggInv (step cfg s e) := by
  cases e with
  | srcService => exact h
  | srcArray items => exact h
  | prefetchStart => exact noSuggInv_prefetchOp s h
  | prefetchDone r => exact noSuggInv_prefetchComplete cfg r s h
  | fetchStart inp f => exact noSuggInv_fetchOp cfg inp f s h
  | fetchDone k r => exact noSuggInv_fetchComplete cfg k r s h
  | filterEv inp => exact noSuggInv_filter cfg inp s h
  | keyCb inp =>
    show noSuggInv (onKeyCallback cfg inp s).1
    unfold onKeyCallback
    split
    · exact noSuggInv_fetchOp cfg inp false s h
    · exact noSuggInv_filter cfg inp s h
  | focusEv inp =>
    show noSuggInv (onFocus cfg inp s).1
    unfold onFocus
    split
    · exact noSuggInv_fetchOp cfg inp false s h
    · exact noSuggInv_filter cfg inp s h
  | selectEv inp sel =>
    show noSuggInv (autocompleteSelected cfg inp sel s).1
    unfold noSuggInv at h ⊢
    rw [autocompleteSelected_fst]
    split
    · exact h
    · exact h
  | clearEv =>
    show noSuggInv (clearValue s).1
    unfold noSuggInv at h ⊢
    rw [clearValue_fst]
    exact h
  | modelWrite v =>
    show noSuggInv (setModelFn v s).1
    unfold noSuggInv at h ⊢
    rw [setModelFn_fst]
    exact h

/-- C7 (amended): in every reachable state, `noSuggestions` is true only
when the most recently completed operation returned zero raw candidates
and — in the case of a fetch or a local filter — was for a non-empty
query; a completed PREFETCH also sets it on an empty result, and a
prefetch carries no query at all. -/
theorem noSuggestions_invariant_amended (cfg : Config) (tr : List Event) :
    (∀ q ∈ (runTrace cfg tr).pendingFetch, q ≠ "") ∧
    ((runTrace cfg tr).noSuggestions = true →
      ∃ info, (runTrace cfg tr).lastCompleted = some info ∧
        info.resultEmpty = true ∧
        ∀ q, info.forQuery = some q → q ≠ "") := by
  have h : noSuggInv (runTrace cfg tr) := by
    refine runTrace_preserve cfg noSuggInv ⟨?_, ?_⟩ (noSuggInv_step cfg) tr
    · intro q hq
      cases hq
    · intro hns
      exact absurd hns (by simp [initState])
  exact h

/-- A trace whose fetch for "ab" completes with an empty result. -/
def emptyFetchTr : List Event :=
  [Event.srcService, Event.fetchStart "ab" false, Event.fetchDone 0 []]

/-- Witness for C7 (amended) on a concrete empty-result fetch. -/
theorem noSuggestions_invariant_witness :
    (runTrace cfg0 emptyFetchTr).noSuggestions = true ∧
    ∃ info, (runTrace cfg0 emptyFetchTr).lastCompleted = some info ∧
      info.resultEmpty = true ∧ ∀ q, info.forQuery = some q → q ≠ "" :=
  ⟨by decide,
   (noSuggestions_invariant_amended cfg0 emptyFetchTr).2 (by decide)⟩

/-- A prefetch that completes with an empty result. -/
def prefetchTr : List Event :=
  [Event.srcService, Event.prefetchStart, Event.prefetchDone []]

/-- C7 counterexample: after a prefetch completes with zero candidates,
`noSuggestions` is true although the most recently completed operation was
NOT a fetch/filter for a non-empty query — the prefetch carried no query
(and the component's `query` is still empty). -/
theorem noSuggestions_prefetch_cex :
    (runTrace cfg0 prefetchTr).noSuggestions = true ∧
    (runTrace cfg0 prefetchTr).query = "" ∧
    ¬ ∃ info : CompInfo, ∃ q : String,
        (runTrace cfg0 prefetchTr).lastCompleted = some info ∧
        info.forQuery = some q ∧ q ≠ "" ∧ info.resultEmpty = true := by
  refine ⟨by decide, by decide, ?_⟩
  rintro ⟨info, q, hlc, hq, -, -⟩
  have hval : (runTrace cfg0 prefetchTr).lastCompleted
      = some ⟨Option.none, true⟩ := by decide
  rw [hval] at hlc
  cases Option.some.inj hlc
  simp at hq

/-! ### C8 -/

theorem saveReturnType_ne (rt : Option String) (items : List JSVal)
    (h : items ≠ []) :
    saveReturnType rt items = some (typeofJS (items.headD JSVal.null)) := by
  cases items with
  | nil => exact absurd rfl h
  | cons x xs => rfl

/-- C8 (amended): the cached observed value kind is overwritten by EVERY
non-empty candidate list obtained (source assignment, prefetch completion,
fetch completion), becoming the `typeof` of that list's first element;
empty lists — and all the other operations — leave it unchanged. -/
theorem returnType_amended (cfg : Config) (s : State) :
    (∀ items : List JSVal, items ≠ [] →
      (setSourceArr items s).returnType
        = some (typeofJS (items.headD JSVal.null))) ∧
    ((setSourceArr [] s).returnType = s.returnType) ∧
    (∀ result : List JSVal, ¬ s.pendingPrefetch = 0 →
      cfg.filterCallback result ≠ [] →
      (prefetchComplete cfg result s).returnType
        = some (typeofJS ((cfg.filterCallback result).headD JSVal.null))) ∧
    (∀ result : List JSVal, ¬ s.pendingPrefetch = 0 →
      cfg.filterCallback result = [] →
      (prefetchComplete cfg result s).returnType = s.returnType) ∧
    (∀ k : Nat, ∀ result : List JSVal, k < s.pendingFetch.length →
      cfg.filterCallback result ≠ [] →
      (fetchComplete cfg k result s).returnType
        = some (typeofJS ((cfg.filterCallback result).headD JSVal.null))) ∧
    (∀ k : Nat, ∀ result : List JSVal, k < s.pendingFetch.length →
      cfg.filterCallback result = [] →
      (fetchComplete cfg k result s).returnType = s.returnType) ∧
    (∀ inp force, (fetchOp cfg inp force s).1.returnType = s.returnType) ∧
    (∀ inp, (filterStoredItems cfg inp s).1.returnType = s.returnType) ∧
    ((prefetchOp s).1.returnType = s.returnType) ∧
    (∀ inp sel,
      (autocompleteSelected cfg inp sel s).1.returnType = s.returnType) ∧
    ((clearValue s).1.returnType = s.returnType) ∧
    (∀ v, (setModelFn v s).1.returnType = s.returnType) ∧
    ((setSourceService s).returnType = s.returnType) := by
  refine ⟨?_, rfl, ?_, ?_, ?_, ?_, ?_, ?_, ?_, ?_, ?_, ?_, rfl⟩
  · intro items hne
    show saveReturnType s.returnType items = _
    exact saveReturnType_ne s.returnType items hne
  · intro result hp hne
    unfold prefetchComplete
    rw [if_neg hp]
    dsimp only
    exact saveReturnType_ne s.returnType _ hne
  · intro result hp hnil
    unfold prefetchComplete
    rw [if_neg hp]
    dsimp only
    rw [hnil]
    rfl
  · intro k result hk hne
    unfold fetchComplete
    rw [dif_pos hk]
    dsimp only
    exact saveReturnType_ne s.returnType _ hne
  · intro k result hk hnil
    unfold fetchComplete
    rw [dif_pos hk]
    dsimp only
    rw [hnil]
    rfl
  · intro inp force
    unfold fetchOp
    split
    · rfl
    · split
      · rfl
      · split
        · rfl
        · rfl
  · intro inp
    exact (filterStoredItems_queue_frame cfg inp s).2.2.2
  · unfold prefetchOp
    split
    · rfl
    · rfl
  · intro inp sel
    rw [autocompleteSelected_fst]
    split
    · rfl
    · rfl
  · rw [clearValue_fst]
  · intro v
    rw [setModelFn_fst]

/-- Witness for C8 (amended). -/
theorem returnType_amended_witness :
    ([JSVal.jstr "a"] ≠ ([] : List JSVal)) ∧
    (setSourceArr [JSVal.jstr "a"] initState).returnType = some "string" := by
  have h := (returnType_amended cfg0 initState).1 [JSVal.jstr "a"] (by decide)
  exact ⟨by decide, h.trans (by decide)⟩

/-- The first delivered candidate list: strings. -/
def firstListTr : List Event := [Event.srcArray [JSVal.jstr "a"]]

/-- The same, followed by a fetch whose result is an object list. -/
def secondListTr : List Event :=
  [Event.srcArray [JSVal.jstr "a"], Event.srcService,
   Event.fetchStart "ab" false, Event.fetchDone 0 [JSVal.jobj "x"]]

/-- C8 counterexample: the kind cached from the FIRST non-empty candidate
list ("string") is changed by a later non-empty list to "object" —
`saveReturnType` overwrites on every non-empty list. -/
theorem returnType_overwrite_cex :
    (runTrace cfg0 firstListTr).returnType = some "string" ∧
    (runTrace cfg0 secondListTr).returnType = some "object" ∧
    some "object" ≠ (some "string" : Option String) := by
  exact ⟨by decide, by decide, by decide⟩

end AutocompleteModel
